import Mathlib

set_option maxHeartbeats 1000000

/-!
Verification of the firmware-package compliance auditing service
(`byte-firmware-checker-fullstack`).

This file shallowly embeds the parts of the backend that the checked
properties are about:

* the rule engine `CheckFWFile_v1.3.1.py` (filename parsing, the
  `log_assert` counter/record logic, `finalize_audit`, the PDF MD5
  matching helper, `check_extracts_to_current_dir`);
* `audit_service.py` (`finalize_chunked_audit_upload`);
* `auth_service.py` (`require_login`);
* the generic CRUD item endpoints (`update_item` / `delete_item`);
* `pdf_report.py` (`generate_audit_report_pdf_file` cache behaviour).

Strings are modelled as `List Char`, file bytes as `List Nat`, and the
document / relational stores as association lists.  Python dictionaries
whose precise contents do not matter to any property are modelled as
association lists of strings.
-/

/- ======================================================================
   Section 1: rule-engine filename parsing
   (`extract_info_from_filename`, CheckFWFile_v1.3.1.py lines 111-123)
   ====================================================================== -/

/-- Characters accepted by the `version` group of the filename pattern,
`[A-Za-z0-9.-]` (ASCII letters, digits, dot, dash). -/
def isVersionChar (c : Char) : Bool :=
  ('A' ≤ c && c ≤ 'Z') || ('a' ≤ c && c ≤ 'z') || ('0' ≤ c && c ≤ '9') || c = '.' || c = '-'

/-- One attempt of the regular expression
`(?P<manufacturer>[^_]+)_(?P<product>[^_]+)_(?P<fw_type>BMC|BIOS)_(?P<version>[A-Za-z0-9.-]+)`
anchored at the start of `l`, following Python's backtracking semantics.
Each `[^_]+` group is forced to be the maximal run of non-underscore
characters: a shorter candidate ends just before another non-underscore
character, so the literal `_` that follows the group cannot match, and the
engine must extend the run to the next underscore.  `BMC` and `BIOS`
cannot both match at one position (they differ at their second
character), so the alternation is decided by direct lookahead.  The
trailing `[A-Za-z0-9.-]+` is at the end of the pattern, so its greedy
maximal run is final.  Hence the regex engine's behaviour at one start
position is exactly this deterministic decomposition.  Returns the four
groups plus the unconsumed remainder of `l`. -/
def matchAt (l : List Char) : Option (List Char × List Char × List Char × List Char × List Char) :=
  let m := l.takeWhile (fun c => c ≠ '_')
  let r := l.dropWhile (fun c => c ≠ '_')
  if m.isEmpty then none else
    match r with
    | '_' :: r1 =>
      let p := r1.takeWhile (fun c => c ≠ '_')
      let r2 := r1.dropWhile (fun c => c ≠ '_')
      if p.isEmpty then none else
        match r2 with
        | '_' :: 'B' :: 'M' :: 'C' :: '_' :: r4 =>
          let v := r4.takeWhile isVersionChar
          if v.isEmpty then none else some (m, p, ['B', 'M', 'C'], v, r4.dropWhile isVersionChar)
        | '_' :: 'B' :: 'I' :: 'O' :: 'S' :: '_' :: r4 =>
          let v := r4.takeWhile isVersionChar
          if v.isEmpty then none else some (m, p, ['B', 'I', 'O', 'S'], v, r4.dropWhile isVersionChar)
        | _ => none
    | _ => none

/-- Python `re.search` of the pattern over `l`: the engine tries every
start position from left to right and keeps the first success. -/
def searchFw : List Char → Option (List Char × List Char × List Char × List Char)
  | [] => none
  | c :: rest =>
    match matchAt (c :: rest) with
    | some (m, p, t, v, _) => some (m, p, t, v)
    | none => searchFw rest

/-- The source's `extract_info_from_filename(filename)`: `re.search` the
pattern in the base name; `none` models the `ValueError` raised when
there is no match (which `initialize_globals` turns into a printed
diagnostic and `exit(1)`).  On success the returned quadruple is
(MANUFACTURER, PRODUCT, FW_TYPE, FW_VERSION) - the four named groups of
the match. -/
def extract_info_from_filename (filename : List Char) : Option (List Char × List Char × List Char × List Char) :=
  searchFw filename

/-- The spec's bit-exact naming convention
`Manufacturer_Product_(BMC|BIOS)_Version.zip` (manufacturer and product
are non-underscore runs, version matches `[A-Za-z0-9.-]+`), as a decision
procedure.  The anchored pattern decomposes deterministically exactly as
one `matchAt` attempt at position 0 (see its docstring), with the
additional end-of-name requirements: nothing may follow the maximal
version-character run, and that run must be a nonempty version core
followed by the literal `.zip` (the four extension characters are
themselves version characters, so the maximal run absorbs them - hence
the run must end in `.zip` and be at least five characters long). -/
def conventionMatch (l : List Char) : Bool :=
  match matchAt l with
  | some (_, _, _, v, rest) =>
    rest.isEmpty && decide (4 < v.length) &&
      (match v.reverse with
       | 'p' :: 'i' :: 'z' :: '.' :: _ => true
       | _ => false)
  | none => false

/-- C1: the claim states that parsing succeeds exactly for base names
matching the full convention `Manufacturer_Product_(BMC|BIOS)_Version.zip`
and raises for every other name.  This is false: `re.search` is
unanchored, so the name `x_A_B_BMC_1.0.zip` - which does not match the
convention (after manufacturer `x` and product `A` the next segment `B`
is neither `BMC` nor `BIOS`) - still parses successfully, because the
pattern occurs as a substring starting at the third character. -/
theorem C1_counterexample :
    conventionMatch ("x_A_B_BMC_1.0.zip".data) = false ∧
      (extract_info_from_filename ("x_A_B_BMC_1.0.zip".data)).isSome = true := by
  constructor
  · decide
  · decide

/-- C1 (amended): parsing succeeds for every archive base name matching
the bit-exact convention (returning the four groups of the leftmost
match, with the version group absorbing the trailing `.zip`); but because
`re.search` is unanchored it also succeeds for names that merely contain
the pattern as a substring, so non-convention names do not necessarily
raise. -/
theorem C1_convention_names_parse :
    ∀ l : List Char, conventionMatch l = true →
      (extract_info_from_filename l).isSome = true := by
  intro l h
  unfold conventionMatch at h
  cases l with
  | nil => simp [matchAt] at h
  | cons c rest =>
    unfold extract_info_from_filename searchFw
    cases hm : matchAt (c :: rest) with
    | none => rw [hm] at h; simp at h
    | some quint =>
      obtain ⟨m, p, t, v, r⟩ := quint
      simp [hm]

/-- Concrete instantiation of `C1_convention_names_parse` at the
convention-conforming name `M_P_BMC_1.0.zip`. -/
theorem C1_convention_names_parse_witness :
    conventionMatch ("M_P_BMC_1.0.zip".data) = true ∧
      (extract_info_from_filename ("M_P_BMC_1.0.zip".data)).isSome = true :=
  ⟨by decide, C1_convention_names_parse ("M_P_BMC_1.0.zip".data) (by decide)⟩

/- ======================================================================
   Section 2: rule-engine assertion helper and finalize step
   (`log_assert` lines 257-336, `STATS` line 167, `finalize_audit`
   lines 1020-1047 of CheckFWFile_v1.3.1.py)
   ====================================================================== -/

/-- Python `logging.WARNING`. -/
def pyWARNING : Nat := 30

/-- Python `logging.ERROR`, the default `fail_level` of `log_assert`. -/
def pyERROR : Nat := 40

/-- The process-wide `STATS` dictionary
`{"total": 0, "passed": 0, "warning": 0, "failed": 0}`. -/
structure Stats where
  total : Nat
  passed : Nat
  warning : Nat
  failed : Nat
deriving DecidableEq, Repr

/-- The initial value of `STATS` at line 167. -/
def initSTATS : Stats := ⟨0, 0, 0, 0⟩

/-- The counter updates performed by one `log_assert` call
(lines 275-285): `total` is always incremented; then, if the condition
holds, `warning` is incremented when `fail_level == logging.WARNING` and
`passed` otherwise; if the condition fails, `warning` is incremented when
`fail_level == logging.WARNING` and `failed` otherwise. -/
def logAssertStats (s : Stats) (condition : Bool) (failLevel : Nat) : Stats :=
  let s1 : Stats := { s with total := s.total + 1 }
  if condition then
    if failLevel = pyWARNING then { s1 with warning := s1.warning + 1 }
    else { s1 with passed := s1.passed + 1 }
  else
    if failLevel = pyWARNING then { s1 with warning := s1.warning + 1 }
    else { s1 with failed := s1.failed + 1 }

/-- The `level` field of the `audit_logs` document written by
`log_assert` (lines 289-299). -/
def logAssertLevel (condition : Bool) (failLevel : Nat) : String :=
  if condition then
    if failLevel = pyWARNING then "info" else "success"
  else
    if failLevel = pyWARNING then "warn" else "error"

/-- The `status` field of the `audit_checks` document written by
`log_assert` (lines 312-321).  The source writes `PASS` in both
condition-true branches (the warning/non-warning distinction there is
vacuous). -/
def logAssertCheckStatus (condition : Bool) (failLevel : Nat) : String :=
  if condition then
    if failLevel = pyWARNING then "PASS" else "PASS"
  else
    if failLevel = pyWARNING then "WARNING" else "FAIL"

/-- One call of `log_assert` viewed through its observable effects: the
updated `STATS`, the `audit_logs` level, the `audit_checks` status, and
the returned condition. -/
structure AssertOutcome where
  stats : Stats
  logLevel : String
  checkStat : String
  result : Bool
deriving DecidableEq

/-- The assertion helper `log_assert(condition, message, ..., fail_level)`
restricted to its state- and record-producing behaviour (the log-file and
database writes carry the computed fields verbatim). -/
def log_assert (s : Stats) (condition : Bool) (failLevel : Nat) : AssertOutcome :=
  { stats := logAssertStats s condition failLevel
    logLevel := logAssertLevel condition failLevel
    checkStat := logAssertCheckStatus condition failLevel
    result := condition }

/-- One assertion event of a run: the condition value and the
`fail_level` the check passed to `log_assert`. -/
structure AssertEvent where
  condition : Bool
  failLevel : Nat
deriving DecidableEq

/-- The value of `STATS` after a run consisting of the given assertion
events, starting from the initial zero counters. -/
def runStats (events : List AssertEvent) : Stats :=
  events.foldl (fun s e => logAssertStats s e.condition e.failLevel) initSTATS

/-- The summary object embedded in the `audits` document by
`finalize_audit`. -/
structure AuditSummary where
  total : Nat
  passed : Nat
  warning : Nat
  failed : Nat
deriving DecidableEq

/-- The status/summary part of the single `audits` document upserted by
`finalize_audit` (lines 1020-1047): status starts `COMPLETED` and is
switched to `FAILED` when `STATS["failed"] > 0`; the summary copies the
four counters. -/
structure AuditFinalDoc where
  status : String
  summary : AuditSummary
deriving DecidableEq

/-- The `finalize_audit` computation of the upserted document from the
run's `STATS`. -/
def finalize_audit (s : Stats) : AuditFinalDoc :=
  let status := if 0 < s.failed then "FAILED" else "COMPLETED"
  { status := status, summary := ⟨s.total, s.passed, s.warning, s.failed⟩ }

/-- A hard failure in the sense of the claim: condition false at a
non-warning severity; exactly the case in which `log_assert` increments
`STATS["failed"]`. -/
def isHardFailure (e : AssertEvent) : Bool :=
  !e.condition && !(e.failLevel == pyWARNING)

theorem runStats_failed_eq_countP (events : List AssertEvent) :
    (runStats events).failed = events.countP isHardFailure := by
  have key : ∀ (l : List AssertEvent) (s : Stats),
      (l.foldl (fun s e => logAssertStats s e.condition e.failLevel) s).failed =
        s.failed + l.countP isHardFailure := by
    intro l
    induction l with
    | nil => intro s; simp
    | cons e t ih =>
      intro s
      rw [List.foldl_cons, ih, List.countP_cons]
      cases hc : e.condition with
      | true =>
        simp [logAssertStats, isHardFailure, hc]
        by_cases hw : e.failLevel = pyWARNING <;> simp [hw]
      | false =>
        by_cases hw : e.failLevel = pyWARNING <;>
          simp [logAssertStats, isHardFailure, hc, hw] <;> omega
  simpa [runStats, initSTATS] using key events initSTATS

/-- C2: at process exit, `finalize_audit` upserts one `audits` document
whose status is `FAILED` exactly when at least one assertion of the run
was a hard failure (condition false at non-warning severity - the case in
which `log_assert` increments the `failed` counter), and `COMPLETED`
otherwise, and whose summary carries the run's aggregate
total/passed/warning/failed counters. -/
theorem C2_finalize_status_and_summary (events : List AssertEvent) :
    ((finalize_audit (runStats events)).status = "FAILED" ↔
        ∃ e ∈ events, e.condition = false ∧ e.failLevel ≠ pyWARNING) ∧
      ((finalize_audit (runStats events)).status = "FAILED" ∨
        (finalize_audit (runStats events)).status = "COMPLETED") ∧
      (finalize_audit (runStats events)).summary =
        ⟨(runStats events).total, (runStats events).passed,
          (runStats events).warning, (runStats events).failed⟩ := by
  refine ⟨?_, ?_, rfl⟩
  · rw [show (finalize_audit (runStats events)).status =
        (if 0 < (runStats events).failed then "FAILED" else "COMPLETED") from rfl]
    constructor
    · intro h
      by_cases hp : 0 < (runStats events).failed
      · rw [runStats_failed_eq_countP] at hp
        obtain ⟨e, he, hprop⟩ := List.countP_pos_iff.mp hp
        refine ⟨e, he, ?_, ?_⟩
        · simp [isHardFailure] at hprop
          exact hprop.1
        · simp [isHardFailure] at hprop
          simpa using hprop.2
      · rw [if_neg hp] at h
        exact absurd h (by decide)
    · rintro ⟨e, he, hc, hw⟩
      have hpos : 0 < (runStats events).failed := by
        rw [runStats_failed_eq_countP]
        refine List.countP_pos_iff.mpr ⟨e, he, ?_⟩
        simp [isHardFailure, hc, hw]
      rw [if_pos hpos]
  · by_cases hp : 0 < (runStats events).failed
    · left
      simp [finalize_audit, hp]
    · right
      simp [finalize_audit, hp]

/-- Concrete instantiation of `C2_finalize_status_and_summary` on the
two-event run [hard failure at ERROR, pass at ERROR]. -/
theorem C2_finalize_status_and_summary_witness :
    ((finalize_audit (runStats [⟨false, pyERROR⟩, ⟨true, pyERROR⟩])).status = "FAILED" ↔
        ∃ e ∈ [(⟨false, pyERROR⟩ : AssertEvent), ⟨true, pyERROR⟩],
          e.condition = false ∧ e.failLevel ≠ pyWARNING) ∧
      ((finalize_audit (runStats [⟨false, pyERROR⟩, ⟨true, pyERROR⟩])).status = "FAILED" ∨
        (finalize_audit (runStats [⟨false, pyERROR⟩, ⟨true, pyERROR⟩])).status = "COMPLETED") ∧
      (finalize_audit (runStats [⟨false, pyERROR⟩, ⟨true, pyERROR⟩])).summary =
        ⟨(runStats [⟨false, pyERROR⟩, ⟨true, pyERROR⟩]).total,
          (runStats [⟨false, pyERROR⟩, ⟨true, pyERROR⟩]).passed,
          (runStats [⟨false, pyERROR⟩, ⟨true, pyERROR⟩]).warning,
          (runStats [⟨false, pyERROR⟩, ⟨true, pyERROR⟩]).failed⟩ :=
  C2_finalize_status_and_summary [⟨false, pyERROR⟩, ⟨true, pyERROR⟩]

/-- C9: every `log_assert` call increments `total` by exactly one and
exactly one of `passed`/`warning`/`failed` by one, so
`total = passed + warning + failed` is preserved; `passed` grows exactly
for condition-true non-warning assertions; a warning-severity assertion
increments `warning` even when its condition holds, yet the persisted
check record of a condition-true warning-severity assertion still says
`PASS`. -/
theorem C9_log_assert_counters (s : Stats) (condition : Bool) (failLevel : Nat) :
    (log_assert s condition failLevel).stats.total = s.total + 1 ∧
      (((log_assert s condition failLevel).stats.passed = s.passed + 1 ∧
          (log_assert s condition failLevel).stats.warning = s.warning ∧
          (log_assert s condition failLevel).stats.failed = s.failed) ∨
        ((log_assert s condition failLevel).stats.warning = s.warning + 1 ∧
          (log_assert s condition failLevel).stats.passed = s.passed ∧
          (log_assert s condition failLevel).stats.failed = s.failed) ∨
        ((log_assert s condition failLevel).stats.failed = s.failed + 1 ∧
          (log_assert s condition failLevel).stats.passed = s.passed ∧
          (log_assert s condition failLevel).stats.warning = s.warning)) ∧
      (s.total = s.passed + s.warning + s.failed →
        (log_assert s condition failLevel).stats.total =
          (log_assert s condition failLevel).stats.passed +
            (log_assert s condition failLevel).stats.warning +
            (log_assert s condition failLevel).stats.failed) ∧
      ((log_assert s condition failLevel).stats.passed = s.passed + 1 ↔
        (condition = true ∧ failLevel ≠ pyWARNING)) ∧
      (condition = true → failLevel = pyWARNING →
        (log_assert s condition failLevel).stats.warning = s.warning + 1 ∧
          (log_assert s condition failLevel).checkStat = "PASS") := by
  cases condition <;> by_cases hw : failLevel = pyWARNING <;>
    simp [log_assert, logAssertStats, logAssertCheckStatus, hw] <;> omega

/-- Concrete instantiation of `C9_log_assert_counters`: a condition-true
warning-severity assertion on counters (3, 1, 1, 1). -/
theorem C9_log_assert_counters_witness :
    (log_assert ⟨3, 1, 1, 1⟩ true pyWARNING).stats.total = 3 + 1 ∧
      (((log_assert ⟨3, 1, 1, 1⟩ true pyWARNING).stats.passed = 1 + 1 ∧
          (log_assert ⟨3, 1, 1, 1⟩ true pyWARNING).stats.warning = 1 ∧
          (log_assert ⟨3, 1, 1, 1⟩ true pyWARNING).stats.failed = 1) ∨
        ((log_assert ⟨3, 1, 1, 1⟩ true pyWARNING).stats.warning = 1 + 1 ∧
          (log_assert ⟨3, 1, 1, 1⟩ true pyWARNING).stats.passed = 1 ∧
          (log_assert ⟨3, 1, 1, 1⟩ true pyWARNING).stats.failed = 1) ∨
        ((log_assert ⟨3, 1, 1, 1⟩ true pyWARNING).stats.failed = 1 + 1 ∧
          (log_assert ⟨3, 1, 1, 1⟩ true pyWARNING).stats.passed = 1 ∧
          (log_assert ⟨3, 1, 1, 1⟩ true pyWARNING).stats.warning = 1)) ∧
      ((3 : Nat) = 1 + 1 + 1 →
        (log_assert ⟨3, 1, 1, 1⟩ true pyWARNING).stats.total =
          (log_assert ⟨3, 1, 1, 1⟩ true pyWARNING).stats.passed +
            (log_assert ⟨3, 1, 1, 1⟩ true pyWARNING).stats.warning +
            (log_assert ⟨3, 1, 1, 1⟩ true pyWARNING).stats.failed) ∧
      ((log_assert ⟨3, 1, 1, 1⟩ true pyWARNING).stats.passed = 1 + 1 ↔
        (true = true ∧ pyWARNING ≠ pyWARNING)) ∧
      (true = true → pyWARNING = pyWARNING →
        (log_assert ⟨3, 1, 1, 1⟩ true pyWARNING).stats.warning = 1 + 1 ∧
          (log_assert ⟨3, 1, 1, 1⟩ true pyWARNING).checkStat = "PASS") :=
  C9_log_assert_counters ⟨3, 1, 1, 1⟩ true pyWARNING

/- ======================================================================
   Section 3: checksum-to-PDF matching
   (`search_md5_in_pdf_with_pypdf2`, CheckFWFile_v1.3.1.py lines 768-794)
   ====================================================================== -/

/-- ASCII whitespace stripped from cell boundaries by Python
`str.strip()`. -/
def isPyWhitespace (c : Char) : Bool :=
  c = ' ' || c = '\t' || c = '\n' || c = '\r' || c = '\x0b' || c = '\x0c'

/-- Python `str.strip()`: drop leading and trailing whitespace. -/
def pyStrip (s : List Char) : List Char :=
  ((s.dropWhile isPyWhitespace).reverse.dropWhile isPyWhitespace).reverse

/-- Python `" ".join(...)`. -/
def joinSpace : List (List Char) → List Char
  | [] => []
  | [x] => x
  | x :: y :: rest => x ++ ' ' :: joinSpace (y :: rest)

/-- One table row's contribution,
`" ".join([str(cell).strip() for cell in row if cell is not None])`:
cells are optional strings (`None` cells are dropped), each survivor is
stripped, and the results are joined with single spaces. -/
def rowText (row : List (Option (List Char))) : List Char :=
  joinSpace ((row.filterMap id).map pyStrip)

/-- A PDF page as the extraction library presents it to the code: the
plain (non-table) page text from `page.extract_text()` (with the
`or ""` default folded in) and the tables from `page.extract_tables()`,
each a list of rows of optional cell strings. -/
structure PdfPage where
  plain : List Char
  tables : List (List (List (Option (List Char))))

/-- The text the loop of `search_md5_in_pdf_with_pypdf2` accumulates for
one page: the plain text plus `"\n"`, then for every table and every row
the joined row text plus `"\n"`. -/
def pageText (p : PdfPage) : List Char :=
  (p.plain ++ ['\n']) ++
    p.tables.flatMap (fun table => table.flatMap (fun row => rowText row ++ ['\n']))

/-- The full accumulated `pdf_text` over all pages. -/
def buildPdfText (pages : List PdfPage) : List Char :=
  pages.flatMap pageText

/-- The cleaning step
`.lower().replace(" ", "").replace("\n", "").replace("\t", "")` applied
to both sides before the substring test.  Python's `str.lower` is
modelled character-wise by `Char.toLower` (they agree on ASCII text, in
particular on hex digests and on the separators the function inserts). -/
def cleanText (s : List Char) : List Char :=
  (s.map Char.toLower).filter (fun c => !(c = ' ' || c = '\n' || c = '\t'))

/-- Does `hay` start with `needle`? -/
def listStartsWith : List Char → List Char → Bool
  | [], _ => true
  | _ :: _, [] => false
  | a :: needle, b :: hay => a = b && listStartsWith needle hay

/-- Python's `needle in hay` contiguous-substring test. -/
def containsSub (needle : List Char) : List Char → Bool
  | [] => listStartsWith needle []
  | b :: hay => listStartsWith needle (b :: hay) || containsSub needle hay

/-- The source's `search_md5_in_pdf_with_pypdf2(pdf_path, target_str)`:
accumulate the page texts and joined table-row texts, clean both the
accumulated text and the target, and test substring containment.  (The
exception branch, which only logs and falls through, is outside the
model: the claim quantifies over extracted PDFs.) -/
def search_md5_in_pdf_with_pypdf2 (pages : List PdfPage) (target : List Char) : Bool :=
  containsSub (cleanText target) (cleanText (buildPdfText pages))

/-- The claim's reading of "the PDF's extracted text": every page's plain
text concatenated with every extracted table cell's content (each cell as
extraction yields it - `None` cells dropped, survivors stripped), with no
separators. -/
def extractedCellText (p : PdfPage) : List Char :=
  p.tables.flatMap (fun table => table.flatMap (fun row => (row.filterMap id).flatMap pyStrip))

/-- The separator-free concatenation of all extracted text, in document
order. -/
def extractedText (pages : List PdfPage) : List Char :=
  pages.flatMap (fun p => p.plain ++ extractedCellText p)

theorem cleanText_append (a b : List Char) :
    cleanText (a ++ b) = cleanText a ++ cleanText b := by
  simp [cleanText]

theorem cleanText_flatMap {α : Type} (f : α → List Char) (l : List α) :
    cleanText (l.flatMap f) = l.flatMap (fun x => cleanText (f x)) := by
  induction l with
  | nil => rfl
  | cons a t ih => simp [List.flatMap_cons, cleanText_append, ih]

theorem cleanText_joinSpace (xs : List (List Char)) :
    cleanText (joinSpace xs) = xs.flatMap cleanText := by
  induction xs with
  | nil => rfl
  | cons x t ih =>
    cases t with
    | nil => simp [joinSpace]
    | cons y r =>
      rw [show joinSpace (x :: y :: r) = x ++ ' ' :: joinSpace (y :: r) from rfl]
      rw [show (' ' :: joinSpace (y :: r)) = [' '] ++ joinSpace (y :: r) from rfl]
      rw [cleanText_append, cleanText_append, ih]
      simp [List.flatMap_cons]
      rfl

theorem cleanText_rowText (row : List (Option (List Char))) :
    cleanText (rowText row) = cleanText ((row.filterMap id).flatMap pyStrip) := by
  rw [rowText, cleanText_joinSpace, cleanText_flatMap]
  rw [List.flatMap_map]

theorem cleanText_pageText (p : PdfPage) :
    cleanText (pageText p) = cleanText p.plain ++ cleanText (extractedCellText p) := by
  rw [pageText, extractedCellText, cleanText_append, cleanText_append, cleanText_flatMap,
    cleanText_flatMap]
  have hnl : cleanText ['\n'] = [] := rfl
  rw [hnl, List.append_nil]
  congr 1
  apply List.flatMap_congr
  intro table _
  rw [cleanText_flatMap, cleanText_flatMap]
  apply List.flatMap_congr
  intro row _
  rw [cleanText_append, hnl, List.append_nil, cleanText_rowText]

theorem cleanText_buildPdfText (pages : List PdfPage) :
    cleanText (buildPdfText pages) = cleanText (extractedText pages) := by
  rw [buildPdfText, extractedText, cleanText_flatMap, cleanText_flatMap]
  apply List.flatMap_congr
  intro p _
  rw [cleanText_pageText, cleanText_append]

/-- C3: the checksum-to-PDF match check returns true exactly when, after
lowercasing both sides and removing all spaces, tabs and newlines, the
digest string occurs as a contiguous substring of the PDF's extracted
text - the plain page texts concatenated with every extracted table
cell's content.  (The `"\n"` and `" "` separators the code inserts while
accumulating are erased by the cleaning step, so the accumulated text and
the bare concatenation agree after cleaning.) -/
theorem C3_md5_pdf_match (pages : List PdfPage) (target : List Char) :
    search_md5_in_pdf_with_pypdf2 pages target =
      containsSub (cleanText target) (cleanText (extractedText pages)) := by
  rw [search_md5_in_pdf_with_pypdf2, cleanText_buildPdfText]

/- ======================================================================
   Section 4: tool-ZIP extraction heuristic
   (`check_extracts_to_current_dir`, CheckFWFile_v1.3.1.py lines 600-614)
   ====================================================================== -/

/-- The `top_level_entries` set built by `check_extracts_to_current_dir`
from the ZIP's name list: for each entry name, `name.split('/')[0]` (the
prefix before the first slash), kept when nonempty (`if parts and
parts[0]`), collected into a Python set - modelled as a deduplicated
list. -/
def topLevelEntries (names : List (List Char)) : List (List Char) :=
  ((names.map (fun n => n.takeWhile (fun c => c ≠ '/'))).filter (fun p => !p.isEmpty)).dedup

/-- The source's `check_extracts_to_current_dir`: true when the set of
top-level entries has more than one element, or some top-level entry name
contains a dot. -/
def check_extracts_to_current_dir (names : List (List Char)) : Bool :=
  decide (1 < (topLevelEntries names).length) ||
    (topLevelEntries names).any (fun entry => entry.contains '.')

/-- C4: `check_extracts_to_current_dir` returns true exactly when the set
of top-level entry names has more than one element or some top-level
entry contains a dot; in particular it is false for an archive whose sole
top-level entry is a single (dot-free) wrapping folder, and true for an
archive with two top-level entries or with a top-level entry containing a
dot. -/
theorem C4_extracts_to_current_dir :
    (∀ names : List (List Char),
      check_extracts_to_current_dir names = true ↔
        (1 < (topLevelEntries names).length ∨
          ∃ entry ∈ topLevelEntries names, '.' ∈ entry)) ∧
      check_extracts_to_current_dir ["folder/".data, "folder/sub/".data, "folder/a.txt".data] = false ∧
      check_extracts_to_current_dir ["alpha/".data, "beta/".data] = true ∧
      check_extracts_to_current_dir ["run.sh".data] = true := by
  refine ⟨?_, by decide, by decide, by decide⟩
  intro names
  rw [check_extracts_to_current_dir]
  rw [Bool.or_eq_true, decide_eq_true_eq, List.any_eq_true]
  constructor
  · rintro (h | ⟨e, he, hc⟩)
    · exact Or.inl h
    · exact Or.inr ⟨e, he, by simpa using hc⟩
  · rintro (h | ⟨e, he, hc⟩)
    · exact Or.inl h
    · exact Or.inr ⟨e, he, by simpa using hc⟩

/- ======================================================================
   Section 5: chunk-upload finalize
   (`AuditService.finalize_chunked_audit_upload`, audit_service.py
   lines 393-523)
   ====================================================================== -/

/-- The fields of the `audit_uploads` session document that
`finalize_chunked_audit_upload` reads.  `init_chunked_audit_upload`
guarantees `totalChunks` was stored as a positive integer; the finalize
route re-reads it with default 0 and rejects non-positive values, which
the model renders as the `totalChunks = 0` branch. -/
structure ChunkMeta where
  totalChunks : Nat
  originalFilename : List Char
deriving DecidableEq

/-- The observable state of one chunk-upload session: its metadata
document (`none` once deleted or never created) and the part files
present in its session directory, keyed by chunk index (the index `i`
names the file `{i:06d}.part`). -/
structure UploadState where
  meta : Option ChunkMeta
  parts : List (Nat × List Nat)
deriving DecidableEq

/-- The error responses `finalize_chunked_audit_upload` can raise.  (The
`uploadDirNotFound` branch corresponds to the session directory check,
which the model - tracking the directory only through its part files -
never takes.) -/
inductive FinalizeErr where
  | sessionNotFound
  | uploadDirNotFound
  | invalidMetadata
  | missingChunk
deriving DecidableEq

/-- HTTP status of each finalize error. -/
def finalizeErrStatus : FinalizeErr → Nat
  | .sessionNotFound => 404
  | .uploadDirNotFound => 404
  | .invalidMetadata => 400
  | .missingChunk => 400

/-- The `detail` text of each finalize error. -/
def finalizeErrDetail : FinalizeErr → String
  | .sessionNotFound => "Upload session not found"
  | .uploadDirNotFound => "Upload directory not found"
  | .invalidMetadata => "Invalid upload metadata"
  | .missingChunk => "Missing chunk"

/-- Content of the part file with the given index, if it exists. -/
def partFile (parts : List (Nat × List Nat)) (i : Nat) : Option (List Nat) :=
  (parts.find? (fun p => p.fst == i)).map Prod.snd

/-- The source's `finalize_chunked_audit_upload`, restricted to one
session: look up the session metadata (404 if absent); reject
non-positive `totalChunks` (400); require every part file `0 ..
totalChunks-1` to exist (400 "Missing chunk" - the code raises before
touching any state); otherwise concatenate the parts in ascending index
order into the assembled file (the 1 MiB read loop copies each part
verbatim), then delete the session metadata document, every expected part
file and the session directory.  Returns the assembled bytes and the
post-call session state. -/
def finalize_chunked_audit_upload (st : UploadState) :
    Except FinalizeErr (List Nat) × UploadState :=
  match st.meta with
  | none => (Except.error FinalizeErr.sessionNotFound, st)
  | some m =>
    if m.totalChunks = 0 then (Except.error FinalizeErr.invalidMetadata, st)
    else if (List.range m.totalChunks).all (fun i => (partFile st.parts i).isSome) then
      (Except.ok ((List.range m.totalChunks).flatMap (fun i => (partFile st.parts i).getD [])),
        { meta := none,
          parts := st.parts.filter (fun p => !decide (p.fst < m.totalChunks)) })
    else (Except.error FinalizeErr.missingChunk, st)

/-- C5: for a session with recorded `totalChunks = n` (positive, as
`init` guarantees) whose part files all carry indices below `n` (as the
chunk-append route guarantees), finalize fails with the 400 "Missing
chunk" error and leaves the session state untouched whenever some part
with index in `0..n-1` is absent; when all `n` parts exist it succeeds,
the assembled file is the byte-concatenation of the `n` parts in
ascending index order, and afterwards the session's metadata document and
its part files are removed. -/
theorem C5_finalize_chunked (st : UploadState) (m : ChunkMeta)
    (hmeta : st.meta = some m) (hpos : 0 < m.totalChunks)
    (hidx : ∀ p ∈ st.parts, p.fst < m.totalChunks) :
    ((∃ i, i < m.totalChunks ∧ partFile st.parts i = none) →
        finalize_chunked_audit_upload st = (Except.error FinalizeErr.missingChunk, st) ∧
          finalizeErrStatus FinalizeErr.missingChunk = 400 ∧
          finalizeErrDetail FinalizeErr.missingChunk = "Missing chunk") ∧
      ((∀ i, i < m.totalChunks → (partFile st.parts i).isSome = true) →
        finalize_chunked_audit_upload st =
          (Except.ok ((List.range m.totalChunks).flatMap
              (fun i => (partFile st.parts i).getD [])),
            { meta := none, parts := [] })) := by
  have hnz : m.totalChunks ≠ 0 := Nat.pos_iff_ne_zero.mp hpos
  constructor
  · rintro ⟨i, hilt, hnone⟩
    have hall : ((List.range m.totalChunks).all
        (fun i => (partFile st.parts i).isSome)) = false := by
      rw [Bool.eq_false_iff]
      intro hcontra
      rw [List.all_eq_true] at hcontra
      have := hcontra i (List.mem_range.mpr hilt)
      rw [hnone] at this
      simp at this
    rw [finalize_chunked_audit_upload, hmeta]
    simp only [hnz, if_false, hall, if_neg]
    exact ⟨rfl, rfl, rfl⟩
  · intro hall
    have hall' : ((List.range m.totalChunks).all
        (fun i => (partFile st.parts i).isSome)) = true := by
      rw [List.all_eq_true]
      intro i hi
      exact hall i (List.mem_range.mp hi)
    have hfilter : st.parts.filter (fun p => !decide (p.fst < m.totalChunks)) = [] := by
      rw [List.filter_eq_nil_iff]
      intro p hp
      simp [hidx p hp]
    rw [finalize_chunked_audit_upload, hmeta]
    simp only [hnz, if_false, hall', if_true, hfilter]

/-- Concrete base state instantiating `C5_finalize_chunked`: a
three-chunk session whose parts arrived out of order. -/
def c5State : UploadState :=
  { meta := some { totalChunks := 3, originalFilename := "fw.zip".data }
    parts := [(1, [10, 11]), (0, [1, 2]), (2, [30])] }

/-- Concrete instantiation of `C5_finalize_chunked` on `c5State`: all
three parts exist, so finalize assembles them in index order and clears
the session. -/
theorem C5_finalize_chunked_witness :
    finalize_chunked_audit_upload c5State =
      (Except.ok ((List.range 3).flatMap
          (fun i => (partFile c5State.parts i).getD [])),
        { meta := none, parts := [] }) :=
  (C5_finalize_chunked c5State { totalChunks := 3, originalFilename := "fw.zip".data }
      rfl (by decide) (by decide)).2 (by decide)

/- ======================================================================
   Section 6: session validation
   (`AuthService.require_login`, auth_service.py lines 138-171)
   ====================================================================== -/

/-- Result of Python's `datetime.fromisoformat` on a stored `expiresAt`
string, abstracted: either the string does not parse (`invalid`, the
`except` branch that sets `exp_dt = None`), or it denotes a wall-clock
time in seconds together with an optional UTC offset (`none` = a naive
datetime without timezone). -/
inductive IsoParse where
  | invalid
  | valid (wallclock : Int) (tzOffset : Option Int)
deriving DecidableEq

/-- The UTC instant a parsed datetime stands for once the code has run
`if exp_dt.tzinfo is None: exp_dt = exp_dt.replace(tzinfo=timezone.utc)`:
an offset-aware datetime denotes `wallclock - offset`, while a naive one
is reinterpreted as UTC, so its wall clock is used unchanged. -/
def isoInstant (wallclock : Int) (tzOffset : Option Int) : Int :=
  match tzOffset with
  | some off => wallclock - off
  | none => wallclock

/-- A stored `sessions` document, restricted to the fields
`require_login` reads: the owner `itcode` and the optional `expiresAt`
string (already classified by `IsoParse`). -/
structure SessionDoc where
  itcode : List Char
  expiresAt : Option IsoParse
deriving DecidableEq

/-- A stored SSO `users` document: the key `itcode` and the optional
`profile` claim dictionary. -/
structure UserDoc where
  itcode : List Char
  profile : Option (List (List Char × List Char))
deriving DecidableEq

/-- The context `require_login` returns on success. -/
structure LoginCtx where
  sessionId : List Char
  itcode : List Char
  user : List (List Char × List Char)
deriving DecidableEq

/-- The 401 errors of `require_login`; all three rejections share this
one class (`HTTPException` with `HTTP_401_UNAUTHORIZED`). -/
inductive AuthError where
  | unauthorized (detail : String)
deriving DecidableEq

/-- The source's `require_login(token)`, with the current UTC time, the
`sessions` collection and the `users` collection made explicit.  A `none`
or empty token is falsy (`if not token`) and rejected as missing; an
unknown handle is rejected as invalid; a stored session whose `expiresAt`
is present, parseable and strictly in the past is rejected as expired;
otherwise the stored profile (or an empty dictionary when the user or its
profile is absent) is returned with the session id and itcode. -/
def require_login (now : Int) (sessions : List (List Char × SessionDoc))
    (users : List UserDoc) (token : Option (List Char)) :
    Except AuthError LoginCtx :=
  match token with
  | none => Except.error (AuthError.unauthorized "Missing session token")
  | some t =>
    if t.isEmpty then Except.error (AuthError.unauthorized "Missing session token")
    else
      match (sessions.find? (fun s => s.fst == t)).map Prod.snd with
      | none => Except.error (AuthError.unauthorized "Invalid session token")
      | some sess =>
        let expired : Bool :=
          match sess.expiresAt with
          | none => false
          | some IsoParse.invalid => false
          | some (IsoParse.valid w off) => decide (isoInstant w off < now)
        if expired then Except.error (AuthError.unauthorized "Session expired")
        else
          Except.ok
            { sessionId := t
              itcode := sess.itcode
              user := ((users.find? (fun u => u.itcode == sess.itcode)).bind
                (fun u => u.profile)).getD [] }

/-- C6: `require_login` rejects as unauthorized every absent (or empty)
session handle, every handle with no stored session, and every stored
session whose parseable `expiresAt` lies strictly in the past (detail
"Session expired"); every other stored session yields exactly
`{sessionId, itcode, user: stored profile or empty}`.  The expired and
never-existing cases produce the same `unauthorized` error class as the
absent-handle case. -/
theorem C6_require_login (now : Int) (sessions : List (List Char × SessionDoc))
    (users : List UserDoc) :
    (require_login now sessions users none =
        Except.error (AuthError.unauthorized "Missing session token")) ∧
      (require_login now sessions users (some []) =
        Except.error (AuthError.unauthorized "Missing session token")) ∧
      (∀ t : List Char, t ≠ [] →
        (sessions.find? (fun s => s.fst == t)).map Prod.snd = none →
        require_login now sessions users (some t) =
          Except.error (AuthError.unauthorized "Invalid session token")) ∧
      (∀ (t : List Char) (sess : SessionDoc) (w : Int) (off : Option Int), t ≠ [] →
        (sessions.find? (fun s => s.fst == t)).map Prod.snd = some sess →
        sess.expiresAt = some (IsoParse.valid w off) →
        isoInstant w off < now →
        require_login now sessions users (some t) =
          Except.error (AuthError.unauthorized "Session expired")) ∧
      (∀ (t : List Char) (sess : SessionDoc), t ≠ [] →
        (sessions.find? (fun s => s.fst == t)).map Prod.snd = some sess →
        (∀ (w : Int) (off : Option Int),
          sess.expiresAt = some (IsoParse.valid w off) → ¬ isoInstant w off < now) →
        require_login now sessions users (some t) =
          Except.ok
            { sessionId := t
              itcode := sess.itcode
              user := ((users.find? (fun u => u.itcode == sess.itcode)).bind
                (fun u => u.profile)).getD [] }) := by
  refine ⟨rfl, rfl, ?_, ?_, ?_⟩
  · intro t ht hfind
    have hne : t.isEmpty = false := by
      cases t with
      | nil => exact absurd rfl ht
      | cons a s => rfl
    simp only [require_login, hne, Bool.false_eq_true, if_false, hfind]
  · intro t sess w off ht hfind hexp hlt
    have hne : t.isEmpty = false := by
      cases t with
      | nil => exact absurd rfl ht
      | cons a s => rfl
    simp only [require_login, hne, Bool.false_eq_true, if_false, hfind, hexp]
    simp [hlt]
  · intro t sess ht hfind hnotexp
    have hne : t.isEmpty = false := by
      cases t with
      | nil => exact absurd rfl ht
      | cons a s => rfl
    simp only [require_login, hne, Bool.false_eq_true, if_false, hfind]
    have hexpired :
        (match sess.expiresAt with
          | none => false
          | some IsoParse.invalid => false
          | some (IsoParse.valid w off) => decide (isoInstant w off < now)) = false := by
      cases hx : sess.expiresAt with
      | none => rfl
      | some p =>
        cases p with
        | invalid => rfl
        | valid w off =>
          simpa using hnotexp w off hx
    simp only [hexpired, Bool.false_eq_true, if_false]

/-- Sessions store for the `C6_require_login` witness: `tok1` expired at
instant 100, `tok2` expires at instant 999. -/
def c6Sessions : List (List Char × SessionDoc) :=
  [("tok1".data, { itcode := "alice".data, expiresAt := some (IsoParse.valid 100 none) }),
   ("tok2".data, { itcode := "bob".data, expiresAt := some (IsoParse.valid 999 none) })]

/-- Users store for the `C6_require_login` witness. -/
def c6Users : List UserDoc :=
  [{ itcode := "alice".data, profile := some [("name".data, "Alice".data)] }]

/-- Concrete instantiation of `C6_require_login` at time 500: the
expired `tok1` is rejected as "Session expired", an unknown token is
rejected as invalid, and the live `tok2` resolves to bob with an empty
profile. -/
theorem C6_require_login_witness :
    (require_login 500 c6Sessions c6Users (some ("tok1".data)) =
        Except.error (AuthError.unauthorized "Session expired")) ∧
      (require_login 500 c6Sessions c6Users (some ("nope".data)) =
        Except.error (AuthError.unauthorized "Invalid session token")) ∧
      (require_login 500 c6Sessions c6Users (some ("tok2".data)) =
        Except.ok { sessionId := "tok2".data, itcode := "bob".data, user := [] }) := by
  refine ⟨?_, ?_, ?_⟩
  · exact (C6_require_login 500 c6Sessions c6Users).2.2.2.1 ("tok1".data)
      { itcode := "alice".data, expiresAt := some (IsoParse.valid 100 none) } 100 none
      (by decide) (by decide) rfl (by decide)
  · exact (C6_require_login 500 c6Sessions c6Users).2.2.1 ("nope".data) (by decide) (by decide)
  · refine (C6_require_login 500 c6Sessions c6Users).2.2.2.2 ("tok2".data)
      { itcode := "bob".data, expiresAt := some (IsoParse.valid 999 none) }
      (by decide) (by decide) ?_
    intro w off hx hlt
    have h := Option.some.inj hx
    cases h
    exact absurd hlt (by decide)

/-- C10: `require_login` never rejects a stored session for expiry unless
its `expiresAt` is present, parseable, and strictly in the past: a stored
session whose `expiresAt` is missing or unparseable is accepted as a
never-expiring session, and a naive (offset-less) `expiresAt` is compared
as if it were UTC (its wall clock is its instant). -/
theorem C10_expiry_only_when_parseable_past (now : Int)
    (sessions : List (List Char × SessionDoc)) (users : List UserDoc)
    (t : List Char) (sess : SessionDoc) (ht : t ≠ [])
    (hfind : (sessions.find? (fun s => s.fst == t)).map Prod.snd = some sess) :
    ((sess.expiresAt = none ∨ sess.expiresAt = some IsoParse.invalid) →
        require_login now sessions users (some t) =
          Except.ok
            { sessionId := t
              itcode := sess.itcode
              user := ((users.find? (fun u => u.itcode == sess.itcode)).bind
                (fun u => u.profile)).getD [] }) ∧
      (require_login now sessions users (some t) =
          Except.error (AuthError.unauthorized "Session expired") →
        ∃ (w : Int) (off : Option Int),
          sess.expiresAt = some (IsoParse.valid w off) ∧ isoInstant w off < now) ∧
      (∀ w : Int, isoInstant w none = w) := by
  have hne : t.isEmpty = false := by
    cases t with
    | nil => exact absurd rfl ht
    | cons a s => rfl
  refine ⟨?_, ?_, fun w => rfl⟩
  · intro hx
    simp only [require_login, hne, Bool.false_eq_true, if_false, hfind]
    rcases hx with hx | hx <;> simp only [hx] <;> rfl
  · intro hrun
    simp only [require_login, hne, Bool.false_eq_true, if_false, hfind] at hrun
    cases hx : sess.expiresAt with
    | none => rw [hx] at hrun; simp at hrun
    | some p =>
      cases p with
      | invalid => rw [hx] at hrun; simp at hrun
      | valid w off =>
        rw [hx] at hrun
        by_cases hlt : isoInstant w off < now
        · exact ⟨w, off, rfl, hlt⟩
        · simp [hlt] at hrun

/-- Sessions store for `C10_expiry_only_when_parseable_past`'s witness:
one session whose `expiresAt` string does not parse. -/
def c10Sessions : List (List Char × SessionDoc) :=
  [("tk".data, { itcode := "carol".data, expiresAt := some IsoParse.invalid })]

/-- Concrete instantiation of `C10_expiry_only_when_parseable_past`: the
unparseable-expiry session is accepted. -/
theorem C10_expiry_witness :
    require_login 0 c10Sessions [] (some ("tk".data)) =
      Except.ok { sessionId := "tk".data, itcode := "carol".data, user := [] } :=
  (C10_expiry_only_when_parseable_past 0 c10Sessions [] ("tk".data)
      { itcode := "carol".data, expiresAt := some IsoParse.invalid }
      (by decide) (by decide)).1 (Or.inr rfl)

/- ======================================================================
   Section 7: generic CRUD item endpoints
   (`update_item` / `delete_item`, api/v1/endpoints/items.py lines
   121-195, with `ItemService` / `BaseRepository` semantics)
   ====================================================================== -/

/-- A row of the relational `items` table, restricted to the columns the
endpoints read or write. -/
structure ItemRec where
  id : Nat
  title : List Char
  description : Option (List Char)
  ownerId : Nat
  isActive : Bool
deriving DecidableEq

/-- An `ItemUpdate` request body under
`model_dump(exclude_unset=True)`: each field is either absent
(not supplied in the PATCH body, hence skipped by the repository's
per-field `setattr` loop) or carries the value to store.  For the
nullable `description` column the supplied value may itself be null. -/
structure ItemUpdate where
  title : Option (List Char)
  description : Option (Option (List Char))
  isActive : Option Bool
deriving DecidableEq

/-- The repository `update` loop: apply exactly the supplied fields. -/
def applyItemUpdate (it : ItemRec) (u : ItemUpdate) : ItemRec :=
  let it1 := match u.title with
    | some v => { it with title := v }
    | none => it
  let it2 := match u.description with
    | some v => { it1 with description := v }
    | none => it1
  match u.isActive with
  | some v => { it2 with isActive := v }
  | none => it2

/-- The error responses of the two endpoints, with the source's Chinese
detail strings ("item not found" / "insufficient permission"). -/
inductive ApiError where
  | notFound (detail : String)
  | forbidden (detail : String)
deriving DecidableEq

/-- `BaseRepository.get`: first row whose primary key matches. -/
def getItem (db : List ItemRec) (itemId : Nat) : Option ItemRec :=
  db.find? (fun it => it.id == itemId)

/-- The `PATCH /items/{item_id}` endpoint, given the authenticated active
caller's user id: 404 when the item does not exist, 403 when the caller
is not the owner, otherwise the update is applied through the service and
repository and the updated row returned.  The pair carries the response
and the table after the call. -/
def update_item (db : List ItemRec) (currentUserId : Nat) (itemId : Nat) (u : ItemUpdate) :
    Except ApiError ItemRec × List ItemRec :=
  match getItem db itemId with
  | none => (Except.error (ApiError.notFound "项目未找到"), db)
  | some it =>
    if it.ownerId ≠ currentUserId then (Except.error (ApiError.forbidden "权限不足"), db)
    else
      (Except.ok (applyItemUpdate it u),
        db.map (fun j => if j.id == itemId then applyItemUpdate it u else j))

/-- The `DELETE /items/{item_id}` endpoint, analogously: 404 when
absent, 403 when the caller is not the owner, otherwise the row is
removed. -/
def delete_item (db : List ItemRec) (currentUserId : Nat) (itemId : Nat) :
    Except ApiError Unit × List ItemRec :=
  match getItem db itemId with
  | none => (Except.error (ApiError.notFound "项目未找到"), db)
  | some it =>
    if it.ownerId ≠ currentUserId then (Except.error (ApiError.forbidden "权限不足"), db)
    else (Except.ok (), db.filter (fun j => !(j.id == itemId)))

theorem getItem_id_eq {db : List ItemRec} {itemId : Nat} {it : ItemRec}
    (h : getItem db itemId = some it) : it.id = itemId := by
  have := List.find?_some h
  simpa using this


theorem getItem_update {db : List ItemRec} {itemId : Nat} {it : ItemRec}
    (h : getItem db itemId = some it) (it' : ItemRec) (hid : it'.id = itemId) :
    getItem (db.map (fun j => if j.id == itemId then it' else j)) itemId = some it' := by
  induction db with
  | nil => simp [getItem] at h
  | cons a t ih =>
    by_cases ha : a.id = itemId
    · simp [getItem, List.find?_cons, ha, hid]
    · have h' : getItem t itemId = some it := by
        simp only [getItem, List.find?_cons] at h
        rw [show (a.id == itemId) = false from by simp [ha]] at h
        exact h
      have hrec := ih h'
      simp only [getItem, List.map_cons, List.find?_cons] at hrec ⊢
      rw [show ((if (a.id == itemId) = true then it' else a).id == itemId) = false from by
        simp [ha]]
      exact hrec

theorem getItem_delete (db : List ItemRec) (itemId : Nat) :
    getItem (db.filter (fun j => !(j.id == itemId))) itemId = none := by
  rw [getItem, List.find?_eq_none]
  intro j hj
  have := (List.mem_filter.mp hj).2
  simpa using this

/-- C7: for an item owned by user A and any different caller B, PATCH and
DELETE issued by B are rejected as forbidden with the stored table
unchanged; the same operations issued by A succeed - the update is
applied field-wise and subsequently readable, and the delete removes the
item; and PATCH/DELETE of a nonexistent id yield the not-found error for
any caller, also leaving the table unchanged. -/
theorem C7_item_ownership (db : List ItemRec) (itemId : Nat) (u : ItemUpdate)
    (userA userB : Nat) :
    (∀ it : ItemRec, getItem db itemId = some it → it.ownerId = userA → userB ≠ userA →
        update_item db userB itemId u = (Except.error (ApiError.forbidden "权限不足"), db) ∧
          delete_item db userB itemId = (Except.error (ApiError.forbidden "权限不足"), db) ∧
          (update_item db userA itemId u).fst = Except.ok (applyItemUpdate it u) ∧
          getItem (update_item db userA itemId u).snd itemId = some (applyItemUpdate it u) ∧
          (delete_item db userA itemId).fst = Except.ok () ∧
          getItem (delete_item db userA itemId).snd itemId = none) ∧
      (getItem db itemId = none →
        (∀ uid : Nat,
          update_item db uid itemId u = (Except.error (ApiError.notFound "项目未找到"), db) ∧
            delete_item db uid itemId = (Except.error (ApiError.notFound "项目未找到"), db))) := by
  constructor
  · intro it hget howner hdiff
    have hBneq : it.ownerId ≠ userB := by rw [howner]; exact fun hc => hdiff hc.symm
    have hAeq : ¬ it.ownerId ≠ userA := fun hc => hc howner
    have hid : (applyItemUpdate it u).id = itemId := by
      have hpres : (applyItemUpdate it u).id = it.id := by
        rw [applyItemUpdate]
        cases u.title <;> cases u.description <;> cases u.isActive <;> rfl
      rw [hpres]
      exact getItem_id_eq hget
    refine ⟨?_, ?_, ?_, ?_, ?_, ?_⟩
    · simp only [update_item, hget]
      rw [if_pos hBneq]
    · simp only [delete_item, hget]
      rw [if_pos hBneq]
    · simp only [update_item, hget]
      rw [if_neg hAeq]
    · simp only [update_item, hget]
      rw [if_neg hAeq]
      exact getItem_update hget (applyItemUpdate it u) hid
    · simp only [delete_item, hget]
      rw [if_neg hAeq]
    · simp only [delete_item, hget]
      rw [if_neg hAeq]
      exact getItem_delete db itemId
  · intro hget uid
    exact ⟨by simp only [update_item, hget], by simp only [delete_item, hget]⟩

/-- Table for the `C7_item_ownership` witness: item 7 owned by user 1. -/
def c7Table : List ItemRec :=
  [{ id := 7, title := "t".data, description := none, ownerId := 1, isActive := true }]

/-- Concrete instantiation of `C7_item_ownership`: user 2 cannot patch or
delete user 1's item 7, while user 1 can, and item 99 is not found. -/
theorem C7_item_ownership_witness :
    (update_item c7Table 2 7 { title := some ("n".data), description := none, isActive := none } =
        (Except.error (ApiError.forbidden "权限不足"), c7Table)) ∧
      (delete_item c7Table 2 7 =
        (Except.error (ApiError.forbidden "权限不足"), c7Table)) ∧
      getItem (delete_item c7Table 1 7).snd 7 = none ∧
      update_item c7Table 1 99 { title := none, description := none, isActive := none } =
        (Except.error (ApiError.notFound "项目未找到"), c7Table) := by
  have h1 := (C7_item_ownership c7Table 7
      { title := some ("n".data), description := none, isActive := none } 1 2).1
      { id := 7, title := "t".data, description := none, ownerId := 1, isActive := true }
      rfl rfl (by decide)
  have h3 := (C7_item_ownership c7Table 7
      { title := none, description := none, isActive := none } 1 2).1
      { id := 7, title := "t".data, description := none, ownerId := 1, isActive := true }
      rfl rfl (by decide)
  have h2 := (C7_item_ownership c7Table 99
      { title := none, description := none, isActive := none } 1 1).2 rfl 1
  exact ⟨h1.1, h1.2.1, h3.2.2.2.2.2, h2.1⟩

/- ======================================================================
   Section 8: PDF report cache
   (`generate_audit_report_pdf_file`, pdf_report.py lines 62-68)
   ====================================================================== -/

/-- The composite audit report passed to the renderer (`get_audit_report`
output); `generate_audit_report_pdf_file` treats it opaquely on the
cache-hit path, so its contents are kept abstract as a raw field set. -/
structure AuditReport where
  raw : List (List Char × List Char)
deriving DecidableEq

/-- The report directory as a file store: path to byte content. -/
structure ReportFS where
  files : List (List Char × List Nat)
deriving DecidableEq

/-- `Path.is_file()` over the modelled store. -/
def fileExists (fs : ReportFS) (path : List Char) : Bool :=
  fs.files.any (fun f => f.fst == path)

/-- The cached report path `<report-root>/<audit-id>.pdf`. -/
def reportPath (reportDir auditId : List Char) : List Char :=
  reportDir ++ '/' :: (auditId ++ ".pdf".data)

/-- The source's `generate_audit_report_pdf_file(audit_id, report)`:
compute `pdf_path`; if the file already exists return its path unchanged
(lines 67-68) without touching the report data; otherwise render the
report - the whole ReportLab layout is abstracted as the `render`
argument producing the file bytes - and write it.  Returns the path and
the report directory afterwards. -/
def generate_audit_report_pdf_file (render : AuditReport → List Nat)
    (reportDir : List Char) (fs : ReportFS) (auditId : List Char) (report : AuditReport) :
    List Char × ReportFS :=
  let pdfPath := reportPath reportDir auditId
  if fileExists fs pdfPath then (pdfPath, fs)
  else (pdfPath, ⟨(pdfPath, render report) :: fs.files⟩)

/-- C8: PDF report generation is an idempotent cache.  When the report
file for an audit id already exists, a generation request returns that
path with the store unchanged - no regeneration, no modification,
whatever report data is passed.  Consequently a repeated request right
after any generation - even with changed audit data and a different
renderer - returns the identical path and leaves the store exactly as
the first call left it. -/
theorem C8_pdf_report_cache (render render2 : AuditReport → List Nat)
    (reportDir : List Char) (fs : ReportFS) (auditId : List Char) (r1 r2 : AuditReport) :
    (fileExists fs (reportPath reportDir auditId) = true →
        generate_audit_report_pdf_file render reportDir fs auditId r1 =
          (reportPath reportDir auditId, fs)) ∧
      generate_audit_report_pdf_file render2 reportDir
          (generate_audit_report_pdf_file render reportDir fs auditId r1).snd auditId r2 =
        generate_audit_report_pdf_file render reportDir fs auditId r1 := by
  constructor
  · intro hex
    simp only [generate_audit_report_pdf_file, hex, if_true]
  · by_cases hex : fileExists fs (reportPath reportDir auditId) = true
    · simp only [generate_audit_report_pdf_file, hex, if_true]
    · rw [Bool.not_eq_true] at hex
      simp only [generate_audit_report_pdf_file, hex, Bool.false_eq_true, if_false]
      have hex2 : fileExists ⟨(reportPath reportDir auditId, render r1) :: fs.files⟩
          (reportPath reportDir auditId) = true := by
        simp [fileExists]
      simp only [hex2, if_true]

/-- File store for the `C8_pdf_report_cache` witness: the report for
audit `a1` already exists. -/
def c8Store : ReportFS :=
  ⟨[(reportPath ("reports".data) ("a1".data), [1, 2, 3])]⟩

/-- Concrete instantiation of `C8_pdf_report_cache`: with `a1.pdf`
already on disk, generation returns the cached path and leaves the store
unchanged. -/
theorem C8_pdf_report_cache_witness :
    generate_audit_report_pdf_file (fun _ => []) ("reports".data) c8Store ("a1".data)
        { raw := [("status".data, "FAILED".data)] } =
      (reportPath ("reports".data) ("a1".data), c8Store) :=
  (C8_pdf_report_cache (fun _ => []) (fun _ => []) ("reports".data) c8Store ("a1".data)
      { raw := [("status".data, "FAILED".data)] }
      { raw := [] }).1 (by decide)
